import Mathlib

/-!
Verification of the DDL-to-bytecode compilation subsystem in
`src/box/sql/build.c` (CREATE TABLE / CREATE INDEX / DROP TABLE compilation
of an embedded SQL engine).  Every definition below is a shallow embedding
of a function from that file; line numbers in the comments refer to it.
-/

set_option linter.unusedVariables false

/-! ## Check-constraint whitespace normalisation (`trim_space_snprintf`, lines 647-671) -/

/-- C `isspace` on an ASCII byte in the default locale: space, tab,
newline, vertical tab, form feed and carriage return. -/
def c_isspace (c : Char) : Bool :=
  c = ' ' || c = '\t' || c = '\n' || c = '\x0b' || c = '\x0c' || c = '\r'

/-- The loop of `trim_space_snprintf`.  State: the remaining input, the
`quote_type` variable (`none` models the `'\0'` sentinel) and the
`is_prev_chr_space` flag.  Output: the characters written through `wptr`
(the terminating NUL byte is left implicit). -/
def trim_space_go : List Char → Option Char → Bool → List Char
  | [], _, _ => []
  | c :: rest, none, is_prev_chr_space =>
    if c = '\'' || c = '\"' then
      c :: trim_space_go rest (some c) false
    else if c_isspace c then
      if is_prev_chr_space then
        trim_space_go rest none true
      else
        ' ' :: trim_space_go rest none true
    else
      c :: trim_space_go rest none false
  | c :: rest, some quote_type, _ =>
    if c = quote_type then
      c :: trim_space_go rest none false
    else
      c :: trim_space_go rest (some quote_type) false

/-- `trim_space_snprintf(wptr, str, str_len)`: the string written into the
destination buffer (its NUL terminator adds one further byte). -/
def trim_space_snprintf (str : List Char) : List Char :=
  trim_space_go str none false

/-! ## Column nullability (`sql_column_add_nullable_action`, lines 447-470) -/

/-- The `on_conflict_action` enumeration used for a field's
`nullable_action`; `default_` models `ON_CONFLICT_ACTION_DEFAULT`, the
sentinel installed by `sqlAddColumn` (line 441). -/
inductive OnConflictAction where
  | none_ | rollback | abort | fail | ignore | replace | default_
deriving DecidableEq, Repr

/-- Helper `action_is_nullable` from the surrounding engine (declared
outside this file): only `ON_CONFLICT_ACTION_NONE` is a nullable action. -/
def action_is_nullable (a : OnConflictAction) : Bool :=
  a = OnConflictAction.none_

/-- Field types; only the distinction of `FIELD_TYPE_INTEGER` from every
other type matters to `sqlAddPrimaryKey` (line 590). -/
inductive FieldType where
  | integer | unsigned | string | number | double | boolean | varbinary | scalar | any
deriving DecidableEq, Repr

/-- The slice of `struct field_def` used by this file: name, declared
type, nullability and collation id. -/
structure FieldDef where
  name : String
  type : FieldType
  nullable_action : OnConflictAction
  is_nullable : Bool
  coll_id : Nat
deriving DecidableEq, Repr

/-- A freshly added column as produced by `sqlAddColumn` (lines 433-443):
the `DEFAULT` nullability sentinel, nullable, default collation. -/
def fresh_column (name : String) (type : FieldType) : FieldDef :=
  { name := name, type := type, nullable_action := OnConflictAction.default_,
    is_nullable := true, coll_id := 0 }

/-- `sql_column_add_nullable_action` applied to the most recently added
field.  Returns the (possibly updated) field together with the
`parser->is_aborted` flag: on a conflicting re-declaration the field is
left untouched and the flag is raised. -/
def sql_column_add_nullable_action (field : FieldDef)
    (nullable_action : OnConflictAction) : FieldDef × Bool :=
  if field.nullable_action ≠ OnConflictAction.default_ &&
      nullable_action ≠ field.nullable_action then
    (field, true)
  else
    ({ field with nullable_action := nullable_action,
                  is_nullable := action_is_nullable nullable_action }, false)

/-! ## Draft table and index machinery
(`sqlAddColumn`, `sql_create_index`, `sqlAddPrimaryKey`, `table_add_index`,
`sqlEndTable`) -/

/-- One resolved key part: field position and collation, the two
components compared by the constraint-merging loop (lines 2597-2604). -/
structure KeyPart where
  fieldno : Nat
  coll : Nat
deriving DecidableEq, Repr

/-- An index definition as attached to a space under construction:
auto-generated name, index id (`iid`, 0 reserved for the primary key) and
resolved key parts. -/
structure IndexDef where
  name : String
  iid : Nat
  parts : List KeyPart
deriving DecidableEq, Repr

/-- The draft space built during a `CREATE TABLE` statement: its name,
ordered column definitions, attached index sequence (`space->index`) and
the running `index_id_max`. -/
structure Space where
  name : String
  fields : List FieldDef
  indexes : List IndexDef
  index_id_max : Nat
deriving DecidableEq, Repr

/-- `sql_space_primary_key` (lines 279-285): the primary key is present
exactly when slot 0 of the index sequence holds iid 0. -/
def sql_space_primary_key (space : Space) : Option IndexDef :=
  match space.indexes with
  | [] => none
  | i0 :: _ => if i0.iid = 0 then some i0 else none

/-- `table_add_index` (lines 2187-2204): append the index, swapping it
into slot 0 first when it is the primary key (`iid = 0`) and other indexes
already exist, and bump `index_id_max`. -/
def table_add_index (space : Space) (index : IndexDef) : Space :=
  let indexes :=
    if index.iid = 0 && !space.indexes.isEmpty then
      match space.indexes with
      | [] => [index]
      | old0 :: rest => (index :: rest) ++ [old0]
    else
      space.indexes ++ [index]
  { space with indexes := indexes,
               index_id_max := max space.index_id_max index.iid }

/-- The four values of `enum sql_index_type`; inside a `CREATE TABLE`
statement only the two constraint kinds occur (assert at line 2449). -/
inductive SqlIndexType where
  | nonUnique | uniqueIdx | constraintUnique | constraintPk
deriving DecidableEq, Repr

/-- Does the character sequence `s` begin with `pre`?  This is the
`strncmp(name, pre, strlen(pre)) == 0` test used by
`constraint_is_named`. -/
def chars_begin_with : List Char → List Char → Bool
  | _, [] => true
  | [], _ :: _ => false
  | c :: cs, p :: ps => c = p && chars_begin_with cs ps

/-- `constraint_is_named` (lines 2319-2325): a constraint counts as named
unless its index name carries one of the three auto-generated prefixes. -/
def constraint_is_named (name : String) : Bool :=
  !(chars_begin_with name.data "sql_autoindex_".data) &&
  !(chars_begin_with name.data "pk_unnamed_".data) &&
  !(chars_begin_with name.data "unique_unnamed_".data)

/-- Name synthesis for constraint indexes created inside `CREATE TABLE`
(lines 2449-2468): the prefix depends on the constraint kind and on
whether the user named the constraint; the argument is the constraint name
when present and non-empty, else the table name. -/
def index_auto_name (idx_type : SqlIndexType) (constraint_name : Option String)
    (table_name : String) (idx_count : Nat) : String :=
  let pre :=
    match idx_type, constraint_name with
    | SqlIndexType.constraintUnique, none => "unique_unnamed_"
    | SqlIndexType.constraintUnique, some _ => "unique_"
    | _, none => "pk_unnamed_"
    | _, some _ => "pk_"
  let arg :=
    match constraint_name with
    | none => table_name
    | some c => if c = "" then table_name else c
  pre ++ arg ++ "_" ++ toString (idx_count + 1)

/-- One column reference of an index column list, after parsing: the
referenced column name and an optional explicit `COLLATE` clause
(`index_fill_def`, lines 2263-2278, accepts only plain column references,
possibly wrapped in `TK_COLLATE`). -/
structure IndexedCol where
  name : String
  coll : Option Nat
deriving DecidableEq, Repr

/-- Position and definition of the field named `nm`, as found by the
linear name searches of `build.c`. -/
def field_lookup (fields : List FieldDef) (nm : String) : Option (Nat × FieldDef) :=
  match fields with
  | [] => none
  | f :: rest =>
    if f.name = nm then some (0, f)
    else (field_lookup rest nm).map (fun p => (p.1 + 1, p.2))

/-- Key-part construction of `index_fill_def` (lines 2257-2291): each
column reference resolves to its field position; the collation is the
explicit `COLLATE` one when given, else the column's own collation.
`none` models the aborted parse on an unresolvable column. -/
def index_fill_def_parts (fields : List FieldDef) :
    List IndexedCol → Option (List KeyPart)
  | [] => some []
  | c :: rest =>
    match field_lookup fields c.name with
    | none => none
    | some (fieldno, f) =>
      match index_fill_def_parts fields rest with
      | none => none
      | some parts =>
        some ({ fieldno := fieldno, coll := c.coll.getD f.coll_id } :: parts)

/-- The duplicate-column removal loop of `sql_create_index`
(lines 2538-2551): `kept` is `parts[0..new_part_count)`; a part is
appended only when no kept part already has its field position. -/
def key_parts_dedup_go (kept : List KeyPart) : List KeyPart → List KeyPart
  | [] => kept
  | p :: rest =>
    if kept.any (fun q => q.fieldno = p.fieldno) then
      key_parts_dedup_go kept rest
    else
      key_parts_dedup_go (kept ++ [p]) rest

/-- Duplicate-column removal on a whole part list; the source always runs
it on at least one part (`new_part_count` starts at 1). -/
def key_parts_dedup : List KeyPart → List KeyPart
  | [] => []
  | p :: rest => key_parts_dedup_go [p] rest

/-- Key equality test of the merge loop (lines 2593-2607): same part
count, and pointwise equal field positions and collations. -/
def key_parts_match (a b : List KeyPart) : Bool :=
  a.length = b.length &&
  (a.zip b).all (fun pq => pq.1.fieldno = pq.2.fieldno && pq.1.coll = pq.2.coll)

/-- Outcome of the UNIQUE/PRIMARY-KEY redundancy scan
(lines 2585-2623). -/
inductive MergeDecision where
  | noMerge
  | dropNew
  | repurpose (updated : List IndexDef)
deriving DecidableEq, Repr

/-- The redundancy scan itself: walk the attached indexes in order; at the
first key match, a PRIMARY KEY constraint repurposes an unnamed existing
index (its iid becomes 0) and an unnamed UNIQUE constraint is dropped;
otherwise the walk continues. -/
def index_merge_scan (idx_type : SqlIndexType) (new_name : String)
    (new_parts : List KeyPart) : List IndexDef → MergeDecision
  | [] => MergeDecision.noMerge
  | existing_idx :: rest =>
    let continue_scan :=
      match index_merge_scan idx_type new_name new_parts rest with
      | MergeDecision.repurpose updated =>
        MergeDecision.repurpose (existing_idx :: updated)
      | d => d
    if key_parts_match new_parts existing_idx.parts then
      if idx_type = SqlIndexType.constraintPk && existing_idx.iid ≠ 0 &&
          !constraint_is_named existing_idx.name then
        MergeDecision.repurpose ({ existing_idx with iid := 0 } :: rest)
      else if idx_type = SqlIndexType.constraintUnique &&
          !constraint_is_named new_name then
        MergeDecision.dropNew
      else
        continue_scan
    else
      continue_scan

/-- `sql_create_index` restricted to the `CREATE TABLE` path
(`new_space != NULL`, `tbl_name == NULL`): synthesise a name
(lines 2429-2468), pick the iid (lines 2524-2528), resolve and
de-duplicate the key parts (lines 2529-2551), run the redundancy scan
(lines 2585-2623) and finally attach via `table_add_index` (line 2675).
`none` models the aborted parse. -/
def sql_create_index_in_table (space : Space) (constraint_name : Option String)
    (idx_type : SqlIndexType) (cols : List IndexedCol) : Option Space :=
  let name := index_auto_name idx_type constraint_name space.name space.indexes.length
  let iid := if idx_type ≠ SqlIndexType.constraintPk then space.index_id_max + 1 else 0
  match index_fill_def_parts space.fields cols with
  | none => none
  | some parts0 =>
    let parts := key_parts_dedup parts0
    let index : IndexDef := { name := name, iid := iid, parts := parts }
    match index_merge_scan idx_type name parts space.indexes with
    | MergeDecision.repurpose updated => some { space with indexes := updated }
    | MergeDecision.dropNew => some space
    | MergeDecision.noMerge => some (table_add_index space index)

/-! ## Primary-key declaration (`sqlAddPrimaryKey`, lines 549-631) -/

/-- `field_def_create_for_pk` (lines 521-535): a primary-key field must be
`ABORT` or the `DEFAULT` sentinel; the sentinel is promoted to
`ABORT`/not-null.  The boolean is the `is_aborted` flag
(`ER_NULLABLE_PRIMARY`). -/
def field_def_create_for_pk (field : FieldDef) : FieldDef × Bool :=
  if field.nullable_action ≠ OnConflictAction.abort &&
      field.nullable_action ≠ OnConflictAction.default_ then
    (field, true)
  else if field.nullable_action = OnConflictAction.default_ then
    ({ field with nullable_action := OnConflictAction.abort, is_nullable := false }, false)
  else
    (field, false)

/-- The loop at lines 623-627: force not-null on every field referenced by
the freshly found primary key. -/
def pk_force_not_null (fields : List FieldDef) (parts : List KeyPart) :
    List FieldDef × Bool :=
  parts.foldl
    (fun acc part =>
      match acc.1.get? part.fieldno with
      | none => acc
      | some f =>
        let r := field_def_create_for_pk f
        (acc.1.set part.fieldno r.1, acc.2 || r.2))
    (fields, false)

/-- The fake single-column list built when `col_list == NULL`
(lines 2487-2500 for `sql_create_index`; the `sqlAddPrimaryKey` fast path
builds the analogous list at lines 592-603): the most recently added
column. -/
def cols_or_last_column (space : Space) (cols : Option (List IndexedCol)) :
    List IndexedCol :=
  match cols with
  | some l => l
  | none =>
    match space.fields.getLast? with
    | some f => [{ name := f.name, coll := none }]
    | none => []

/-- Failure modes of `sqlAddPrimaryKey`. -/
inductive PkErr where
  /-- "primary key has been already declared" (lines 558-562). -/
  | alreadyDeclared
  /-- "AUTOINCREMENT is only allowed on an INTEGER PRIMARY KEY" (lines 607-612). -/
  | autoincOnNonInt
  /-- An aborted sub-call of `sql_create_index` (unresolved column and the like). -/
  | aborted
  /-- The lookup `sql_space_primary_key` right after index creation came
  back empty, so the `assert(pk != NULL)` at line 621 fails. -/
  | pkLookupFailed
  /-- `ER_NULLABLE_PRIMARY` raised by `field_def_create_for_pk`. -/
  | nullablePrimary
deriving DecidableEq, Repr

/-- `sqlAddPrimaryKey` (lines 549-631): reject a second primary key,
resolve the column list (`iCol`/`nTerm`), take the single-integer-column
fast path or the generic path — both of which call `sql_create_index` —
then look the primary key up again and force its fields not-null. -/
def sqlAddPrimaryKey (space : Space) (constraint_name : Option String)
    (cols : Option (List IndexedCol)) (has_autoinc : Bool) : Except PkErr Space :=
  if (sql_space_primary_key space).isSome then
    Except.error PkErr.alreadyDeclared
  else
    let nTerm : Nat := match cols with | none => 1 | some l => l.length
    let iCol : Option Nat :=
      match cols with
      | none =>
        if space.fields.isEmpty then none else some (space.fields.length - 1)
      | some l =>
        l.foldl
          (fun acc c =>
            match field_lookup space.fields c.name with
            | some p => some p.1
            | none => acc)
          none
    let int_field : Option FieldDef :=
      if nTerm = 1 then
        match iCol with
        | some i =>
          match space.fields.get? i with
          | some f => if f.type = FieldType.integer then some f else none
          | none => none
        | none => none
      else none
    let created : Except PkErr Space :=
      match int_field with
      | some f =>
        match sql_create_index_in_table space constraint_name
            SqlIndexType.constraintPk [{ name := f.name, coll := none }] with
        | some sp => Except.ok sp
        | none => Except.error PkErr.aborted
      | none =>
        if has_autoinc then Except.error PkErr.autoincOnNonInt
        else
          match sql_create_index_in_table space constraint_name
              SqlIndexType.constraintPk (cols_or_last_column space cols) with
          | some sp => Except.ok sp
          | none => Except.error PkErr.aborted
    match created with
    | Except.error e => Except.error e
    | Except.ok sp =>
      match sql_space_primary_key sp with
      | none => Except.error PkErr.pkLookupFailed
      | some pk =>
        let r := pk_force_not_null sp.fields pk.parts
        if r.2 then Except.error PkErr.nullablePrimary
        else Except.ok { sp with fields := r.1 }

/-! ## Statement finalisation (`sqlEndTable`, lines 1235-1366) -/

/-- One system-catalog row insertion emitted by `sqlEndTable`. -/
inductive CatalogInsert where
  | spaceRow (name : String)
  | indexRow (iid : Nat) (name : String)
  | sequenceRow
  | spaceSequenceRow
  | fkRow (name : String)
  | ckRow (name : String)
deriving DecidableEq, Repr

/-- Is this catalog insertion a `_index` row? -/
def CatalogInsert.isIndexRow : CatalogInsert → Bool
  | CatalogInsert.indexRow _ _ => true
  | _ => false

/-- `sqlEndTable`, reduced to its observable catalog-row emission: fail
with "PRIMARY KEY missing" before emitting anything (lines 1245-1250),
default the remaining nullability sentinels (lines 1257-1264), then emit
the `_space` row, one `_index` row per attached index in slot order
(lines 1292-1298), the `_sequence`/`_space_sequence` pair on autoincrement
(lines 1304-1324), and one row per pending foreign-key and
check-constraint (lines 1326-1365).  `none` models the aborted statement
that emits no catalog insertion. -/
def sqlEndTable (space : Space) (has_autoinc : Bool)
    (fk_names ck_names : List String) : Option (Space × List CatalogInsert) :=
  match sql_space_primary_key space with
  | none => none
  | some _ =>
    let fields := space.fields.map (fun f =>
      if f.nullable_action = OnConflictAction.default_ then
        { f with nullable_action := OnConflictAction.none_, is_nullable := true }
      else f)
    some ({ space with fields := fields },
      CatalogInsert.spaceRow space.name
        :: (space.indexes.map (fun i => CatalogInsert.indexRow i.iid i.name)
          ++ (if has_autoinc then
                [CatalogInsert.sequenceRow, CatalogInsert.spaceSequenceRow]
              else [])
          ++ fk_names.map CatalogInsert.fkRow
          ++ ck_names.map CatalogInsert.ckRow))

/-! ## Dropping a table (`sql_drop_table`, lines 1738-1807, and
`sql_code_drop_table`, lines 1619-1730) -/

/-- The slice of `struct fk_constraint_def` the drop path consults. -/
structure FkConstraintDef where
  name : String
  child_id : Nat
  parent_id : Nat
deriving DecidableEq, Repr

/-- Modelled from the spec: `fk_constraint_is_self_referenced` is declared
outside this file (`box/fk_constraint.h`); a self-reference is a foreign
key whose child table equals its parent table. -/
def fk_constraint_is_self_referenced (fk : FkConstraintDef) : Bool :=
  fk.child_id = fk.parent_id

/-- The slice of a live `struct space` consulted when dropping it. -/
structure DropSpace where
  id : Nat
  name : String
  is_view : Bool
  /-- `space->parent_fk_constraint`: foreign keys referencing this space. -/
  parent_fk : List FkConstraintDef
  /-- `space->child_fk_constraint`: names of foreign keys held by this space. -/
  child_fk : List String
  /-- `space->ck_constraint` names. -/
  ck : List String
  trigger_names : List String
  has_sequence : Bool
  /-- iids of `space->index[1..]`. -/
  secondary_iids : List Nat
deriving DecidableEq, Repr

/-- One instruction of the emitted drop sequence. -/
inductive DropOp where
  | dropTrigger (name : String)
  | checkViewReferences
  | delSequenceData
  | delSpaceSequence
  | delSequence
  | delFkConstraint (name : String)
  | delCkConstraint (name : String)
  | delIndex (iid : Nat)
  | delTruncate
  | delSpace
deriving DecidableEq, Repr

/-- `sql_code_drop_table` (lines 1619-1730): triggers, the view-reference
check, the sequence triple, child foreign keys, check constraints, the
secondary then primary `_index` rows (tables only), the `_truncate` row
and finally the `_space` row. -/
def sql_code_drop_table (space : DropSpace) (is_view : Bool) : List DropOp :=
  space.trigger_names.map DropOp.dropTrigger
    ++ [DropOp.checkViewReferences]
    ++ (if space.has_sequence then
          [DropOp.delSequenceData, DropOp.delSpaceSequence, DropOp.delSequence]
        else [])
    ++ space.child_fk.map DropOp.delFkConstraint
    ++ space.ck.map DropOp.delCkConstraint
    ++ (if !is_view then
          space.secondary_iids.map DropOp.delIndex ++ [DropOp.delIndex 0]
        else [])
    ++ [DropOp.delTruncate, DropOp.delSpace]

/-- Failure modes of `sql_drop_table`. -/
inductive DropErr where
  /-- `ER_NO_SUCH_SPACE`. -/
  | noSuchSpace
  /-- "use DROP TABLE" (a view dropped with DROP TABLE syntax). -/
  | useDropTable
  /-- "use DROP VIEW". -/
  | useDropView
  /-- "other objects depend on it" (`ER_DROP_SPACE`). -/
  | dependentObjects
deriving DecidableEq, Repr

/-- `sql_drop_table` (lines 1738-1807): resolve the space, check the
statement kind, refuse when a non-self foreign key references the space,
otherwise emit the drop sequence.  An error emits no drop instruction. -/
def sql_drop_table (space : Option DropSpace) (is_view : Bool)
    (if_exists : Bool) : Except DropErr (List DropOp) :=
  match space with
  | none =>
    if if_exists then Except.ok [] else Except.error DropErr.noSuchSpace
  | some sp =>
    if is_view && !sp.is_view then Except.error DropErr.useDropTable
    else if !is_view && sp.is_view then Except.error DropErr.useDropView
    else if sp.parent_fk.any (fun fk => !fk_constraint_is_self_referenced fk) then
      Except.error DropErr.dependentObjects
    else
      Except.ok (sql_code_drop_table sp is_view)

/-! ## The record-undo ledger
(`save_record`, lines 87-104, and `sql_finish_coding`, lines 106-147) -/

/-- The VDBE opcodes involved in the undo ledger.  `sInsert` carries its
`P2` operand: the address the VM jumps to when the insertion fails at run
time.  `halt` carries its `P1` error code (`OP_Halt` added with no operand
has code 0; `sqlVdbeAddOp1(v, OP_Halt, SQL_TARANTOOL_ERROR)` carries a
non-zero code). -/
inductive VdbeOp where
  | sInsert (space_id : Nat) (p2 : Nat) (tuple_reg : Nat)
  | makeRecord (reg_key : Nat) (reg_key_count : Nat) (reg_out : Nat)
  | sDelete (space_id : Nat) (record_reg : Nat)
  | halt (errcode : Nat)
  | other
deriving DecidableEq, Repr

/-- The `SQL_TARANTOOL_ERROR` status carried by the final `OP_Halt` of the
clean-up code; only its being non-zero matters here. -/
def SQL_TARANTOOL_ERROR : Nat := 1

/-- `struct saved_record` (lines 64-76). -/
structure SavedRecord where
  space_id : Nat
  reg_key : Nat
  reg_key_count : Nat
  insertion_opcode : Nat
deriving DecidableEq, Repr

/-- `save_record` (lines 87-104): `rlist_add_entry` prepends, so the head
of `parser->record_list` is always the most recently registered
insertion. -/
def save_record (record_list : List SavedRecord)
    (space_id reg_key reg_key_count insertion_opcode : Nat) : List SavedRecord :=
  { space_id := space_id, reg_key := reg_key, reg_key_count := reg_key_count,
    insertion_opcode := insertion_opcode } :: record_list

/-- `sqlVdbeChangeP2` as used by `sql_finish_coding`: overwrite the `P2`
operand of the instruction at `addr` (always an `OP_SInsert` there). -/
def changeP2 (ops : List VdbeOp) (addr target : Nat) : List VdbeOp :=
  match ops.get? addr with
  | some (VdbeOp.sInsert space_id _ tuple_reg) =>
    ops.set addr (VdbeOp.sInsert space_id target tuple_reg)
  | _ => ops

/-- The `rlist_foreach_entry` loop of `sql_finish_coding`
(lines 131-143): for each remaining ledger entry emit an
`OP_MakeRecord`/`OP_SDelete` pair for its catalog row, then patch that
entry's `OP_SInsert` to jump right past the pair (so a failing insertion
skips its own compensating delete and runs only the deletes of the
entries registered before it).  The second component threads
`parse_context->nMem`. -/
def cleanup_loop : List VdbeOp → Nat → List SavedRecord → List VdbeOp × Nat
  | ops, nMem, [] => (ops, nMem)
  | ops, nMem, record :: rest =>
    let record_reg := nMem + 1
    let ops1 := ops ++
      [VdbeOp.makeRecord record.reg_key record.reg_key_count record_reg,
       VdbeOp.sDelete record.space_id record_reg]
    let ops2 := changeP2 ops1 record.insertion_opcode ops1.length
    cleanup_loop ops2 record_reg rest

/-- The undo portion of `sql_finish_coding` (lines 112-147): append the
terminating `OP_Halt`, and if the ledger is non-empty pop its head (the
most recent insertion, which needs no undo), patch that insertion to jump
to the start of the clean-up code, run the loop over the remaining
entries, and close with `OP_Halt SQL_TARANTOOL_ERROR`. -/
def sql_finish_coding_undo (ops : List VdbeOp) (record_list : List SavedRecord)
    (nMem : Nat) : List VdbeOp :=
  let ops0 := ops ++ [VdbeOp.halt 0]
  match record_list with
  | [] => ops0
  | record :: rest =>
    let ops1 := changeP2 ops0 record.insertion_opcode ops0.length
    let r := cleanup_loop ops1 nMem rest
    r.1 ++ [VdbeOp.halt SQL_TARANTOOL_ERROR]

/-- Run the VDBE from `pc`.  `failing pc` tells whether the `OP_SInsert`
at `pc` fails at run time (failure jumps to its `P2`, success falls
through).  The result collects the space ids of the executed `OP_SDelete`
instructions in execution order, and the error code of the `OP_Halt` that
ended the run (`none` when the fuel ran out or the program counter left
the program). -/
def vdbe_exec (ops : List VdbeOp) (failing : Nat → Bool) :
    Nat → Nat → List Nat × Option Nat
  | 0, _ => ([], none)
  | fuel + 1, pc =>
    match ops.get? pc with
    | none => ([], none)
    | some (VdbeOp.sInsert _ p2 _) =>
      if failing pc then vdbe_exec ops failing fuel p2
      else vdbe_exec ops failing fuel (pc + 1)
    | some (VdbeOp.sDelete space_id _) =>
      let r := vdbe_exec ops failing fuel (pc + 1)
      (space_id :: r.1, r.2)
    | some (VdbeOp.halt e) => ([], some e)
    | some _ => vdbe_exec ops failing fuel (pc + 1)

/-- The pure shape of the clean-up code the loop appends: one
`OP_MakeRecord`/`OP_SDelete` pair per remaining ledger entry, in ledger
order. -/
def cleanup_tail (nMem : Nat) : List SavedRecord → List VdbeOp
  | [] => []
  | record :: rest =>
    VdbeOp.makeRecord record.reg_key record.reg_key_count (nMem + 1)
      :: VdbeOp.sDelete record.space_id (nMem + 1)
      :: cleanup_tail (nMem + 1) rest

/-- The space id of an `OP_SDelete`, for reading compensating deletes off
an instruction list. -/
def sdelete_space : VdbeOp → Option Nat
  | VdbeOp.sDelete space_id _ => some space_id
  | _ => none

/-! ## Concrete examples used by the theorems below -/

/-- The claim C5/C4 spec-side description of duplicate removal: keep the
first occurrence of each distinct field position (those already kept are
collected in `seen`), drop later repeats, preserving order. -/
def keep_first_occurrence (seen : List Nat) : List KeyPart → List KeyPart
  | [] => []
  | p :: rest =>
    if p.fieldno ∈ seen then keep_first_occurrence seen rest
    else p :: keep_first_occurrence (seen ++ [p.fieldno]) rest

/-- The check-expression source text of claim C4, `  a  =  'x   y'  `,
as the character sequence handed to `trim_space_snprintf`. -/
def c4_source : List Char :=
  [' ', ' ', 'a', ' ', ' ', '=', ' ', ' ', '\'', 'x', ' ', ' ', ' ', 'y', '\'', ' ', ' ']

/-- What the normaliser actually produces for `c4_source`:
` a = 'x   y' ` — every whitespace run outside quotes, the leading and
trailing ones included, collapses to a single space. -/
def c4_actual : List Char :=
  [' ', 'a', ' ', '=', ' ', '\'', 'x', ' ', ' ', ' ', 'y', '\'', ' ']

/-- The output claimed by the spec for `c4_source`: `a = 'x   y'`. -/
def c4_claimed : List Char :=
  ['a', ' ', '=', ' ', '\'', 'x', ' ', ' ', ' ', 'y', '\'']

/-- Draft table `t(a INT)` right after its column callbacks. -/
def example_one_col : Space :=
  { name := "t", fields := [fresh_column "a" FieldType.integer],
    indexes := [], index_id_max := 0 }

/-- Draft table `t(b INT, a INT)` right after its column callbacks. -/
def example_two_cols : Space :=
  { name := "t",
    fields := [fresh_column "b" FieldType.integer, fresh_column "a" FieldType.integer],
    indexes := [], index_id_max := 0 }

/-- Draft table `t(a INT, b INT, c INT)` right after its column callbacks. -/
def example_three_cols : Space :=
  { name := "t",
    fields := [fresh_column "a" FieldType.integer, fresh_column "b" FieldType.integer,
               fresh_column "c" FieldType.integer],
    indexes := [], index_id_max := 0 }

/-- A live table (id 7) referenced by a foreign key held by another
table (child id 5). -/
def example_drop_blocked : DropSpace :=
  { id := 7, name := "p", is_view := false,
    parent_fk := [{ name := "fk1", child_id := 5, parent_id := 7 }],
    child_fk := [], ck := [], trigger_names := [], has_sequence := false,
    secondary_iids := [] }

/-- A live table (id 7) whose only incoming foreign key is a
self-reference. -/
def example_drop_selfref : DropSpace :=
  { id := 7, name := "p", is_view := false,
    parent_fk := [{ name := "fk1", child_id := 7, parent_id := 7 }],
    child_fk := ["fk1"], ck := ["ck1"], trigger_names := [], has_sequence := false,
    secondary_iids := [1] }

/-- A compiled main program with three catalog insertions: the `_space`
row insert at address 0, an unrelated instruction, and two dependent row
inserts at addresses 2 and 3 (`P2` still unpatched). -/
def example_undo_base : List VdbeOp :=
  [VdbeOp.sInsert 280 0 1, VdbeOp.other, VdbeOp.sInsert 281 0 2,
   VdbeOp.sInsert 282 0 3]

/-- The ledger entries of `example_undo_base` in emission order: the
`_space` row first, then the two dependent rows. -/
def example_undo_records : List SavedRecord :=
  [{ space_id := 280, reg_key := 10, reg_key_count := 1, insertion_opcode := 0 },
   { space_id := 281, reg_key := 20, reg_key_count := 1, insertion_opcode := 2 },
   { space_id := 282, reg_key := 30, reg_key_count := 1, insertion_opcode := 3 }]

/-! ## Theorems -/

/-- Each step of the normalisation loop consumes one input character and
writes at most one output character. -/
theorem trim_space_go_length_le :
    ∀ (str : List Char) (quote_type : Option Char) (is_prev_chr_space : Bool),
      (trim_space_go str quote_type is_prev_chr_space).length ≤ str.length := by
  intro str
  induction str with
  | nil => intro q b; simp [trim_space_go]
  | cons c rest ih =>
    intro q b
    cases q with
    | none =>
      simp only [trim_space_go]
      split
      · simpa using ih (some c) false
      · split
        · split
          · exact Nat.le_succ_of_le (ih none true)
          · simpa using ih none true
        · simpa using ih none false
    | some qt =>
      simp only [trim_space_go]
      split
      · simpa using ih none false
      · simpa using ih (some qt) false

/-- C10: the check-expression whitespace normaliser writes at most
`L + 1` bytes for an input of length `L`: the output string is never
longer than the input, so the output characters plus the terminating NUL
fit the caller's buffer of `str_len + 1` bytes
(`trim_space_snprintf`, lines 647-671, called at line 736 with a buffer
sized by `ck_constraint_def_sizeof` from the raw expression length). -/
theorem claim_c10_no_overrun (str : List Char) :
    (trim_space_snprintf str).length + 1 ≤ str.length + 1 :=
  Nat.succ_le_succ (trim_space_go_length_le str none false)

/-- C4 counterexample: the source `  a  =  'x   y'  ` does NOT normalise
to `a = 'x   y'` — the leading and trailing whitespace runs are collapsed
to single spaces, not removed, so the actual output is ` a = 'x   y' `
(`trim_space_snprintf` emits one `' '` for the first character of every
whitespace run, wherever the run sits). -/
theorem claim_c4_counterexample : trim_space_snprintf c4_source ≠ c4_claimed := by
  decide

/-- All-whitespace suffixes with the flag already set produce nothing. -/
theorem trim_space_go_all_space (str : List Char)
    (h : ∀ c ∈ str, c_isspace c = true) :
    trim_space_go str none true = [] := by
  induction str with
  | nil => simp [trim_space_go]
  | cons c rest ih =>
    have hc := h c (List.mem_cons_self c rest)
    have hq : ¬(c = '\'' || c = '\"') = true := by
      intro hcontra
      rcases Bool.or_eq_true_iff.mp hcontra with h1 | h1
      · rw [of_decide_eq_true h1] at hc; exact absurd hc (by decide)
      · rw [of_decide_eq_true h1] at hc; exact absurd hc (by decide)
    simp only [trim_space_go, hq, if_false, hc, if_true]
    exact ih (fun d hd => h d (List.mem_cons_of_mem c hd))

/-- Inside a quoted region every character other than the closing quote is
copied verbatim, and the closing quote itself closes the region. -/
theorem trim_space_go_quoted (inner : List Char)
    (h : ∀ c ∈ inner, c ≠ '\'') :
    ∀ b : Bool, trim_space_go (inner ++ ['\'']) (some '\'') b = inner ++ ['\''] := by
  induction inner with
  | nil => intro b; simp [trim_space_go]
  | cons c rest ih =>
    intro b
    have hc : c ≠ '\'' := h c (List.mem_cons_self c rest)
    simp only [List.cons_append, List.append_eq, trim_space_go, hc, if_false]
    rw [ih (fun d hd => h d (List.mem_cons_of_mem c hd)) false]

/-- C4 amended: whitespace runs outside quoted regions collapse to a
single space and quoted regions are copied verbatim, but outer runs are
collapsed, not removed: the source `  a  =  'x   y'  ` normalises to
` a = 'x   y' ` (with one leading and one trailing space), not to
`a = 'x   y'`.  The conjuncts: the corrected concrete example; a
non-empty all-whitespace run becomes exactly one space; a quoted region
is copied verbatim including its internal whitespace. -/
theorem claim_c4_amended :
    trim_space_snprintf c4_source = c4_actual ∧
    (∀ str : List Char, (∀ c ∈ str, c_isspace c = true) → str ≠ [] →
      trim_space_snprintf str = [' ']) ∧
    (∀ inner : List Char, (∀ c ∈ inner, c ≠ '\'') →
      trim_space_snprintf ('\'' :: inner ++ ['\'']) = '\'' :: inner ++ ['\'']) := by
  refine ⟨by decide, ?_, ?_⟩
  · intro str hall hne
    match str with
    | [] => exact absurd rfl hne
    | c :: rest =>
      have hc := hall c (List.mem_cons_self c rest)
      have hq : ¬(c = '\'' || c = '\"') = true := by
        intro hcontra
        rcases Bool.or_eq_true_iff.mp hcontra with h1 | h1
        · rw [of_decide_eq_true h1] at hc; exact absurd hc (by decide)
        · rw [of_decide_eq_true h1] at hc; exact absurd hc (by decide)
      have hrest := trim_space_go_all_space rest
        (fun d hd => hall d (List.mem_cons_of_mem c hd))
      simp [trim_space_snprintf, trim_space_go, hq, hc, hrest]
  · intro inner h
    have hquoted := trim_space_go_quoted inner h false
    simp [trim_space_snprintf, trim_space_go, hquoted]

/-- Witness for `claim_c4_amended` at the whitespace run `" \t"` and the
quoted region `'q  w'`. -/
theorem claim_c4_amended_witness :
    trim_space_snprintf [' ', '\t'] = [' '] ∧
    trim_space_snprintf ['\'', 'q', ' ', ' ', 'w', '\''] =
      ['\'', 'q', ' ', ' ', 'w', '\''] :=
  ⟨claim_c4_amended.2.1 [' ', '\t'] (by decide) (by decide),
   claim_c4_amended.2.2 ['q', ' ', ' ', 'w'] (by decide)⟩

/-- The duplicate-removal loop keeps exactly the parts whose field
position has not been kept before. -/
theorem key_parts_dedup_go_spec :
    ∀ (parts kept : List KeyPart),
      key_parts_dedup_go kept parts =
        kept ++ keep_first_occurrence (kept.map KeyPart.fieldno) parts := by
  intro parts
  induction parts with
  | nil => intro kept; simp [key_parts_dedup_go, keep_first_occurrence]
  | cons p rest ih =>
    intro kept
    by_cases hmem : p.fieldno ∈ kept.map KeyPart.fieldno
    · have hany : kept.any (fun q => q.fieldno = p.fieldno) = true := by
        rcases List.mem_map.mp hmem with ⟨q, hq, hqf⟩
        exact List.any_eq_true.mpr ⟨q, hq, by simp [hqf]⟩
      simp only [key_parts_dedup_go, keep_first_occurrence, hany, if_true, hmem]
      exact ih kept
    · have hany : kept.any (fun q => q.fieldno = p.fieldno) = false := by
        rw [Bool.eq_false_iff]
        intro hcontra
        rcases List.any_eq_true.mp hcontra with ⟨q, hq, hqf⟩
        exact hmem (List.mem_map.mpr ⟨q, hq, of_decide_eq_true hqf⟩)
      simp only [key_parts_dedup_go, keep_first_occurrence, hany, Bool.false_eq_true,
        if_false, hmem]
      rw [ih (kept ++ [p])]
      simp [keep_first_occurrence]

/-- C5: primary-key duplicate-column removal (`sql_create_index`,
lines 2538-2551) keeps exactly the first occurrence of each distinct
field position, dropping later repeats and preserving the relative order
of the kept parts; on a draft `t(a,b,c)`, `PRIMARY KEY(b,a,b,c,a)`
resolves to the key parts `[b,a,c]`. -/
theorem claim_c5_pk_dedup :
    (∀ parts : List KeyPart, key_parts_dedup parts = keep_first_occurrence [] parts) ∧
    key_parts_dedup
        [{ fieldno := 1, coll := 0 }, { fieldno := 0, coll := 0 },
         { fieldno := 1, coll := 0 }, { fieldno := 2, coll := 0 },
         { fieldno := 0, coll := 0 }] =
      [{ fieldno := 1, coll := 0 }, { fieldno := 0, coll := 0 },
       { fieldno := 2, coll := 0 }] ∧
    (sql_create_index_in_table example_three_cols none SqlIndexType.constraintPk
        [{ name := "b", coll := none }, { name := "a", coll := none },
         { name := "b", coll := none }, { name := "c", coll := none },
         { name := "a", coll := none }]).map
      (fun sp => sp.indexes.map IndexDef.parts) =
      some [[{ fieldno := 1, coll := 0 }, { fieldno := 0, coll := 0 },
             { fieldno := 2, coll := 0 }]] := by
  refine ⟨?_, by decide, by decide⟩
  intro parts
  match parts with
  | [] => rfl
  | p :: rest =>
    show key_parts_dedup_go [p] rest = _
    rw [key_parts_dedup_go_spec rest [p]]
    simp [keep_first_occurrence]

/-- C6: on a freshly added column (`DEFAULT` nullability sentinel),
declaring an explicit nullability twice with the same value succeeds and
the second declaration is a no-op, while declaring a different value
afterwards raises the conflicting-nullability error
(`"NULL declaration ... has been already set"`) and leaves the column
untouched (`sql_column_add_nullable_action`, lines 447-470). -/
theorem claim_c6_nullability (nm : String) (ty : FieldType)
    (a b : OnConflictAction) (ha : a ≠ OnConflictAction.default_) (hba : b ≠ a) :
    (sql_column_add_nullable_action (fresh_column nm ty) a).2 = false ∧
    sql_column_add_nullable_action
        (sql_column_add_nullable_action (fresh_column nm ty) a).1 a =
      ((sql_column_add_nullable_action (fresh_column nm ty) a).1, false) ∧
    sql_column_add_nullable_action
        (sql_column_add_nullable_action (fresh_column nm ty) a).1 b =
      ((sql_column_add_nullable_action (fresh_column nm ty) a).1, true) := by
  refine ⟨?_, ?_, ?_⟩ <;>
    simp [sql_column_add_nullable_action, fresh_column, ha, hba]

/-- Witness for `claim_c6_nullability`: column `a`, `NOT NULL` declared
twice, then `NULL` declared after `NOT NULL`. -/
theorem claim_c6_nullability_witness :
    (sql_column_add_nullable_action
        (fresh_column "a" FieldType.integer) OnConflictAction.abort).2 = false ∧
    sql_column_add_nullable_action
        (sql_column_add_nullable_action
          (fresh_column "a" FieldType.integer) OnConflictAction.abort).1
        OnConflictAction.abort =
      ((sql_column_add_nullable_action
          (fresh_column "a" FieldType.integer) OnConflictAction.abort).1, false) ∧
    sql_column_add_nullable_action
        (sql_column_add_nullable_action
          (fresh_column "a" FieldType.integer) OnConflictAction.abort).1
        OnConflictAction.none_ =
      ((sql_column_add_nullable_action
          (fresh_column "a" FieldType.integer) OnConflictAction.abort).1, true) :=
  claim_c6_nullability "a" FieldType.integer OnConflictAction.abort
    OnConflictAction.none_ (by decide) (by decide)

/-- The redundancy scan never repurposes an index on behalf of a UNIQUE
constraint: `repurpose` is produced only in the PRIMARY KEY branch. -/
theorem index_merge_scan_unique_no_repurpose :
    ∀ (l : List IndexDef) (nm : String) (ps : List KeyPart) (u : List IndexDef),
      index_merge_scan SqlIndexType.constraintUnique nm ps l =
        MergeDecision.repurpose u → False := by
  intro l
  induction l with
  | nil => intro nm ps u h; simp [index_merge_scan] at h
  | cons e rest ih =>
    intro nm ps u h
    simp only [index_merge_scan] at h
    rcases hrec : index_merge_scan SqlIndexType.constraintUnique nm ps rest with
      _ | _ | u'
    · rw [hrec] at h
      repeat' split at h
      all_goals simp_all
    · rw [hrec] at h
      repeat' split at h
      all_goals simp_all
    · exact absurd hrec (ih nm ps u')

/-- A space none of whose attached indexes has iid 0 has no primary
key. -/
theorem sql_space_primary_key_none (sp : Space)
    (h : ∀ i ∈ sp.indexes, i.iid ≠ 0) : sql_space_primary_key sp = none := by
  unfold sql_space_primary_key
  match hidx : sp.indexes with
  | [] => rfl
  | i0 :: rest =>
    have : i0.iid ≠ 0 := h i0 (by rw [hidx]; exact List.mem_cons_self i0 rest)
    simp [this]

/-- C7: a `CREATE TABLE` finalised without a primary key fails with the
"PRIMARY KEY missing" error and emits no catalog insertion at all
(`sqlEndTable`, lines 1245-1250, returns before any emission).  The first
conjunct shows that building indexes with UNIQUE constraints only can
never attach an iid-0 (primary-key) index, so a statement that never
declared a primary key satisfies the second conjunct's hypothesis. -/
theorem claim_c7_missing_pk :
    (∀ (sp : Space) (cname : Option String) (cols : List IndexedCol) (sp2 : Space),
      sql_create_index_in_table sp cname SqlIndexType.constraintUnique cols = some sp2 →
      (∀ i ∈ sp.indexes, i.iid ≠ 0) → (∀ i ∈ sp2.indexes, i.iid ≠ 0)) ∧
    (∀ (sp : Space) (has_autoinc : Bool) (fk_names ck_names : List String),
      (∀ i ∈ sp.indexes, i.iid ≠ 0) →
      sqlEndTable sp has_autoinc fk_names ck_names = none) := by
  constructor
  · intro sp cname cols sp2 hcreate hiid
    unfold sql_create_index_in_table at hcreate
    rcases hparts : index_fill_def_parts sp.fields cols with _ | parts0 <;>
      rw [hparts] at hcreate
    · exact absurd hcreate (by simp)
    · simp only [] at hcreate
      rcases hscan : index_merge_scan SqlIndexType.constraintUnique
          (index_auto_name SqlIndexType.constraintUnique cname sp.name
            sp.indexes.length)
          (key_parts_dedup parts0) sp.indexes with _ | _ | u <;>
        rw [hscan] at hcreate
      · -- no merge: the new index is appended with iid = index_id_max + 1
        simp only [Option.some_inj] at hcreate
        subst hcreate
        intro i hi
        unfold table_add_index at hi
        simp only [if_neg, Bool.and_eq_true, Bool.not_eq_true'] at hi
        have hne : ¬((if SqlIndexType.constraintUnique ≠ SqlIndexType.constraintPk
            then sp.index_id_max + 1 else 0) = 0) := by simp
        rw [if_neg (by simp)] at hi
        rcases List.mem_append.mp hi with h1 | h1
        · exact hiid i h1
        · rcases List.mem_singleton.mp h1 with rfl
          simp only [ne_eq]
          simp at hne
          simp [hne]
      · -- the new unique index was dropped
        simp only [Option.some_inj] at hcreate
        subst hcreate
        exact hiid
      · exact absurd hscan
          (fun hc => index_merge_scan_unique_no_repurpose sp.indexes _ _ u hc)
  · intro sp has_autoinc fk_names ck_names hiid
    unfold sqlEndTable
    rw [sql_space_primary_key_none sp hiid]

/-- Witness for `claim_c7_missing_pk`: finalising `t(a INT, UNIQUE(a))`
(unique index iid 1 attached, no primary key ever declared) emits
nothing. -/
theorem claim_c7_missing_pk_witness :
    sqlEndTable
      { name := "t", fields := [fresh_column "a" FieldType.integer],
        indexes := [{ name := "unique_unnamed_t_1", iid := 1,
                      parts := [{ fieldno := 0, coll := 0 }] }],
        index_id_max := 1 } false [] [] = none :=
  claim_c7_missing_pk.2 _ false [] [] (by decide)

/-- C8: dropping a table referenced by a foreign key held by a different
table fails with the dependent-objects error and emits no drop
instruction, while a table whose incoming foreign keys are all
self-references proceeds to the full (non-empty) drop sequence
(`sql_drop_table`, lines 1793-1803). -/
theorem claim_c8_drop_fk (sp : DropSpace) (is_view if_exists : Bool)
    (hkind : sp.is_view = is_view) :
    ((∃ fk ∈ sp.parent_fk, fk.child_id ≠ fk.parent_id) →
      sql_drop_table (some sp) is_view if_exists =
        Except.error DropErr.dependentObjects) ∧
    ((∀ fk ∈ sp.parent_fk, fk.child_id = fk.parent_id) →
      sql_drop_table (some sp) is_view if_exists =
        Except.ok (sql_code_drop_table sp is_view) ∧
      sql_code_drop_table sp is_view ≠ []) := by
  constructor
  · intro hdep
    rcases hdep with ⟨fk, hmem, hne⟩
    have hany : sp.parent_fk.any
        (fun fk => !fk_constraint_is_self_referenced fk) = true :=
      List.any_eq_true.mpr ⟨fk, hmem, by
        simp [fk_constraint_is_self_referenced, hne]⟩
    unfold sql_drop_table
    subst hkind
    simp [hany]
  · intro hself
    have hany : sp.parent_fk.any
        (fun fk => !fk_constraint_is_self_referenced fk) = false := by
      rw [Bool.eq_false_iff]
      intro hcontra
      rcases List.any_eq_true.mp hcontra with ⟨fk, hmem, hfk⟩
      rw [Bool.not_eq_true'] at hfk
      exact absurd (hself fk hmem)
        (by simpa [fk_constraint_is_self_referenced] using hfk)
    constructor
    · unfold sql_drop_table
      subst hkind
      simp [hany]
    · unfold sql_code_drop_table
      intro hcontra
      simp at hcontra

/-- Witness for `claim_c8_drop_fk`: the blocked drop of a table with a
foreign key from child table 5, and the successful drop of a table whose
only incoming foreign key is a self-reference. -/
theorem claim_c8_drop_fk_witness :
    sql_drop_table (some example_drop_blocked) false false =
      Except.error DropErr.dependentObjects ∧
    sql_drop_table (some example_drop_selfref) false false =
      Except.ok (sql_code_drop_table example_drop_selfref false) :=
  ⟨(claim_c8_drop_fk example_drop_blocked false false rfl).1
      ⟨{ name := "fk1", child_id := 5, parent_id := 7 }, by decide, by decide⟩,
   ((claim_c8_drop_fk example_drop_selfref false false rfl).2 (by decide)).1⟩

/-- C2 counterexample: on `t(a INT)`, an unnamed `UNIQUE(a)` followed by
a *named* `CONSTRAINT p PRIMARY KEY(a)` still repurposes the unique
index — exactly one index results, not the two the claim promises when
"either constraint is explicitly named".  The merge test at
lines 2609-2616 consults only the *existing* index's name, never the new
primary key's. -/
theorem claim_c2_counterexample :
    ((sql_create_index_in_table example_one_col none SqlIndexType.constraintUnique
        [{ name := "a", coll := none }]).bind
      (fun s1 => sql_create_index_in_table s1 (some "p") SqlIndexType.constraintPk
        [{ name := "a", coll := none }])).map
      (fun s2 => s2.indexes.length) = some 1 ∧
    ¬ ((sql_create_index_in_table example_one_col none SqlIndexType.constraintUnique
        [{ name := "a", coll := none }]).bind
      (fun s1 => sql_create_index_in_table s1 (some "p") SqlIndexType.constraintPk
        [{ name := "a", coll := none }])).map
      (fun s2 => s2.indexes.length) = some 2 := by
  constructor <;> decide

/-- A PRIMARY KEY constraint repurposes the first matching existing index
when that index is unnamed and not already the primary key. -/
theorem index_merge_scan_pk_repurpose :
    ∀ (pre : List IndexDef) (e : IndexDef) (post : List IndexDef)
      (nm : String) (ps : List KeyPart),
      (∀ x ∈ pre, key_parts_match ps x.parts = false) →
      key_parts_match ps e.parts = true →
      e.iid ≠ 0 → constraint_is_named e.name = false →
      index_merge_scan SqlIndexType.constraintPk nm ps (pre ++ e :: post) =
        MergeDecision.repurpose (pre ++ { e with iid := 0 } :: post) := by
  intro pre
  induction pre with
  | nil =>
    intro e post nm ps hpre hmatch hiid hnamed
    simp [index_merge_scan, hmatch, hiid, hnamed]
  | cons x rest ih =>
    intro e post nm ps hpre hmatch hiid hnamed
    have hx : key_parts_match ps x.parts = false :=
      hpre x (List.mem_cons_self x rest)
    have hrec := ih e post nm ps
      (fun y hy => hpre y (List.mem_cons_of_mem x hy)) hmatch hiid hnamed
    simp only [List.cons_append, index_merge_scan, hx, Bool.false_eq_true,
      if_false, List.append_eq]
    rw [hrec]

/-- An unnamed UNIQUE constraint whose key matches some attached index is
dropped by the scan. -/
theorem index_merge_scan_unique_dropped :
    ∀ (l : List IndexDef) (nm : String) (ps : List KeyPart),
      constraint_is_named nm = false →
      (∃ e ∈ l, key_parts_match ps e.parts = true) →
      index_merge_scan SqlIndexType.constraintUnique nm ps l =
        MergeDecision.dropNew := by
  intro l
  induction l with
  | nil => intro nm ps hnm hex; rcases hex with ⟨e, he, _⟩; simp at he
  | cons x rest ih =>
    intro nm ps hnm hex
    by_cases hx : key_parts_match ps x.parts = true
    · simp [index_merge_scan, hx, hnm]
    · rcases hex with ⟨e, he, hematch⟩
      rcases List.mem_cons.mp he with rfl | he'
      · exact absurd hematch hx
      · have hrec := ih nm ps hnm ⟨e, he', hematch⟩
        simp [index_merge_scan, hrec, hx]

/-- A named UNIQUE constraint is never merged: the scan always falls
through. -/
theorem index_merge_scan_unique_named :
    ∀ (l : List IndexDef) (nm : String) (ps : List KeyPart),
      constraint_is_named nm = true →
      index_merge_scan SqlIndexType.constraintUnique nm ps l =
        MergeDecision.noMerge := by
  intro l
  induction l with
  | nil => intro nm ps hnm; rfl
  | cons x rest ih =>
    intro nm ps hnm
    have hrec := ih nm ps hnm
    simp [index_merge_scan, hrec, hnm]

/-- A PRIMARY KEY constraint merges nothing when every matching attached
index is named (or already the primary key). -/
theorem index_merge_scan_pk_no_unnamed_match :
    ∀ (l : List IndexDef) (nm : String) (ps : List KeyPart),
      (∀ e ∈ l, key_parts_match ps e.parts = true →
        e.iid = 0 ∨ constraint_is_named e.name = true) →
      index_merge_scan SqlIndexType.constraintPk nm ps l =
        MergeDecision.noMerge := by
  intro l
  induction l with
  | nil => intro nm ps h; rfl
  | cons x rest ih =>
    intro nm ps h
    have hrec := ih nm ps (fun e he => h e (List.mem_cons_of_mem x he))
    by_cases hx : key_parts_match ps x.parts = true
    · rcases h x (List.mem_cons_self x rest) hx with h0 | hnamed
      · simp [index_merge_scan, hrec, hx, h0]
      · simp [index_merge_scan, hrec, hx, hnamed]
    · simp [index_merge_scan, hrec, hx]

/-- C2 amended: merging is governed solely by the *unique-constraint*
index's unnamedness.  (1) A PRIMARY KEY (named or not) declared after an
unnamed UNIQUE over the identical column-and-collation list repurposes
that index in place — no second index.  (2) An unnamed UNIQUE declared
when a matching index already exists (e.g. the PRIMARY KEY) is simply not
created.  (3) A *named* UNIQUE is always created, matching index or not.
(4) A PRIMARY KEY whose matching attached indexes are all named (or
already primary) is created as a fresh index, so a named UNIQUE plus a
PRIMARY KEY over the same columns yields two indexes. -/
theorem claim_c2_amended :
    (∀ (sp : Space) (cname : Option String) (cols : List IndexedCol)
        (parts0 : List KeyPart) (pre : List IndexDef) (e : IndexDef)
        (post : List IndexDef),
      index_fill_def_parts sp.fields cols = some parts0 →
      sp.indexes = pre ++ e :: post →
      (∀ x ∈ pre, key_parts_match (key_parts_dedup parts0) x.parts = false) →
      key_parts_match (key_parts_dedup parts0) e.parts = true →
      e.iid ≠ 0 → constraint_is_named e.name = false →
      sql_create_index_in_table sp cname SqlIndexType.constraintPk cols =
        some { sp with indexes := pre ++ { e with iid := 0 } :: post }) ∧
    (∀ (sp : Space) (cname : Option String) (cols : List IndexedCol)
        (parts0 : List KeyPart),
      index_fill_def_parts sp.fields cols = some parts0 →
      constraint_is_named (index_auto_name SqlIndexType.constraintUnique cname
        sp.name sp.indexes.length) = false →
      (∃ e ∈ sp.indexes, key_parts_match (key_parts_dedup parts0) e.parts = true) →
      sql_create_index_in_table sp cname SqlIndexType.constraintUnique cols =
        some sp) ∧
    (∀ (sp : Space) (cname : Option String) (cols : List IndexedCol)
        (parts0 : List KeyPart),
      index_fill_def_parts sp.fields cols = some parts0 →
      constraint_is_named (index_auto_name SqlIndexType.constraintUnique cname
        sp.name sp.indexes.length) = true →
      sql_create_index_in_table sp cname SqlIndexType.constraintUnique cols =
        some (table_add_index sp
          { name := index_auto_name SqlIndexType.constraintUnique cname
              sp.name sp.indexes.length,
            iid := sp.index_id_max + 1, parts := key_parts_dedup parts0 })) ∧
    (∀ (sp : Space) (cname : Option String) (cols : List IndexedCol)
        (parts0 : List KeyPart),
      index_fill_def_parts sp.fields cols = some parts0 →
      (∀ e ∈ sp.indexes, key_parts_match (key_parts_dedup parts0) e.parts = true →
        e.iid = 0 ∨ constraint_is_named e.name = true) →
      sql_create_index_in_table sp cname SqlIndexType.constraintPk cols =
        some (table_add_index sp
          { name := index_auto_name SqlIndexType.constraintPk cname
              sp.name sp.indexes.length,
            iid := 0, parts := key_parts_dedup parts0 })) := by
  refine ⟨?_, ?_, ?_, ?_⟩
  · intro sp cname cols parts0 pre e post hfill hidx hpre hmatch hiid hnamed
    unfold sql_create_index_in_table
    rw [hfill]
    simp only []
    rw [hidx, index_merge_scan_pk_repurpose pre e post _ _ hpre hmatch hiid hnamed]
  · intro sp cname cols parts0 hfill hunnamed hex
    unfold sql_create_index_in_table
    rw [hfill]
    simp only []
    rw [index_merge_scan_unique_dropped sp.indexes _ _ hunnamed hex]
  · intro sp cname cols parts0 hfill hnamed
    unfold sql_create_index_in_table
    rw [hfill]
    simp only []
    rw [index_merge_scan_unique_named sp.indexes _ _ hnamed]
    simp
  · intro sp cname cols parts0 hfill hall
    unfold sql_create_index_in_table
    rw [hfill]
    simp only []
    rw [index_merge_scan_pk_no_unnamed_match sp.indexes _ _ hall]
    simp

/-- Witness for `claim_c2_amended`: a named `CONSTRAINT p PRIMARY KEY(a)`
after an unnamed `UNIQUE(a)` repurposes the unique index (one index), and
a named `CONSTRAINT u UNIQUE(a)` declared when the primary key over `a`
already exists is still created (two indexes). -/
theorem claim_c2_amended_witness :
    sql_create_index_in_table
        { name := "t", fields := [fresh_column "a" FieldType.integer],
          indexes := [{ name := "unique_unnamed_t_1", iid := 1,
                        parts := [{ fieldno := 0, coll := 0 }] }],
          index_id_max := 1 }
        (some "p") SqlIndexType.constraintPk [{ name := "a", coll := none }] =
      some { name := "t", fields := [fresh_column "a" FieldType.integer],
             indexes := [{ name := "unique_unnamed_t_1", iid := 0,
                           parts := [{ fieldno := 0, coll := 0 }] }],
             index_id_max := 1 } ∧
    sql_create_index_in_table
        { name := "t", fields := [fresh_column "a" FieldType.integer],
          indexes := [{ name := "pk_unnamed_t_1", iid := 0,
                        parts := [{ fieldno := 0, coll := 0 }] }],
          index_id_max := 0 }
        (some "u") SqlIndexType.constraintUnique [{ name := "a", coll := none }] =
      some (table_add_index
        { name := "t", fields := [fresh_column "a" FieldType.integer],
          indexes := [{ name := "pk_unnamed_t_1", iid := 0,
                        parts := [{ fieldno := 0, coll := 0 }] }],
          index_id_max := 0 }
        { name := "unique_u_2", iid := 1,
          parts := [{ fieldno := 0, coll := 0 }] }) :=
  by
  constructor
  · have h := claim_c2_amended.1
      { name := "t", fields := [fresh_column "a" FieldType.integer],
        indexes := [{ name := "unique_unnamed_t_1", iid := 1,
                      parts := [{ fieldno := 0, coll := 0 }] }],
        index_id_max := 1 }
      (some "p") [{ name := "a", coll := none }] [{ fieldno := 0, coll := 0 }]
      [] { name := "unique_unnamed_t_1", iid := 1,
           parts := [{ fieldno := 0, coll := 0 }] } []
      (by decide) rfl (by simp) (by decide) (by decide) (by decide)
    simpa using h
  · have h := claim_c2_amended.2.2.1
      { name := "t", fields := [fresh_column "a" FieldType.integer],
        indexes := [{ name := "pk_unnamed_t_1", iid := 0,
                      parts := [{ fieldno := 0, coll := 0 }] }],
        index_id_max := 0 }
      (some "u") [{ name := "a", coll := none }] [{ fieldno := 0, coll := 0 }]
      (by decide) (by decide)
    simpa using h

/-- C3 counterexample: `CREATE TABLE t(a INT PRIMARY KEY)` — a
single-column *integer* primary key — still inserts a `_index` catalog
row (iid 0).  Both branches of `sqlAddPrimaryKey` call
`sql_create_index` (lines 589-618), and `sqlEndTable` emits one `_index`
row for every attached index (lines 1294-1298) with no integer special
case; the "No index is created for INTEGER PRIMARY KEYs" comment at
lines 546-547 does not match the code. -/
theorem claim_c3_counterexample :
    (sqlAddPrimaryKey example_one_col none none false).toOption.bind
      (fun sp => (sqlEndTable sp false [] []).map
        (fun r => r.2.filter (fun c => c.isIndexRow))) =
      some [CatalogInsert.indexRow 0 "pk_unnamed_t_1"] ∧
    ¬ (sqlAddPrimaryKey example_one_col none none false).toOption.bind
      (fun sp => (sqlEndTable sp false [] []).map
        (fun r => r.2.filter (fun c => c.isIndexRow))) = some [] := by
  constructor <;> decide

/-- C3 amended: every finalised table's primary key — the single-integer
column case included — produces a real `_index` catalog row: `sqlEndTable`
emits exactly one `_index` row per attached index, among them the iid-0
primary-key row. -/
theorem claim_c3_amended (sp : Space) (has_autoinc : Bool)
    (fk_names ck_names : List String) (pk : IndexDef)
    (hpk : sql_space_primary_key sp = some pk) :
    ∃ sp2 rows, sqlEndTable sp has_autoinc fk_names ck_names = some (sp2, rows) ∧
      rows.filter (fun c => c.isIndexRow) =
        sp.indexes.map (fun i => CatalogInsert.indexRow i.iid i.name) ∧
      CatalogInsert.indexRow 0 pk.name ∈ rows := by
  have hshape : ∃ rest, sp.indexes = pk :: rest ∧ pk.iid = 0 := by
    unfold sql_space_primary_key at hpk
    rcases hidx : sp.indexes with _ | ⟨i0, rest⟩ <;> rw [hidx] at hpk
    · exact absurd hpk (by simp)
    · have hpk2 : (if i0.iid = 0 then some i0 else none) = some pk := hpk
      by_cases h0 : i0.iid = 0
      · rw [if_pos h0] at hpk2
        refine ⟨rest, ?_, ?_⟩
        · rw [show i0 = pk from Option.some_inj.mp hpk2]
        · rw [← Option.some_inj.mp hpk2]; exact h0
      · rw [if_neg h0] at hpk2
        exact absurd hpk2 (by simp)
  rcases hshape with ⟨rest, hidx, hiid⟩
  refine ⟨_, _, by unfold sqlEndTable; rw [hpk], ?_, ?_⟩
  · simp only [List.filter_cons, List.filter_append]
    have h1 : (CatalogInsert.isIndexRow (CatalogInsert.spaceRow sp.name)) = false := rfl
    rw [h1]
    have h2 : (sp.indexes.map
        (fun i => CatalogInsert.indexRow i.iid i.name)).filter
          (fun c => c.isIndexRow) =
        sp.indexes.map (fun i => CatalogInsert.indexRow i.iid i.name) :=
      List.filter_eq_self.mpr (by
        intro a ha
        rcases List.mem_map.mp ha with ⟨i, _, rfl⟩
        rfl)
    rw [h2]
    have h3 : ((if has_autoinc then
        [CatalogInsert.sequenceRow, CatalogInsert.spaceSequenceRow]
        else []).filter (fun c => c.isIndexRow)) = [] := by
      cases has_autoinc <;> rfl
    have h4 : ((fk_names.map CatalogInsert.fkRow).filter
        (fun c => c.isIndexRow)) = [] :=
      List.filter_eq_nil_iff.mpr (by
        intro a ha
        rcases List.mem_map.mp ha with ⟨i, _, rfl⟩
        simp [CatalogInsert.isIndexRow])
    have h5 : ((ck_names.map CatalogInsert.ckRow).filter
        (fun c => c.isIndexRow)) = [] :=
      List.filter_eq_nil_iff.mpr (by
        intro a ha
        rcases List.mem_map.mp ha with ⟨i, _, rfl⟩
        simp [CatalogInsert.isIndexRow])
    rw [h3, h4, h5]
    simp
  · refine List.mem_cons_of_mem _ (List.mem_append_left _ ?_)
    refine List.mem_append_left _ ?_
    refine List.mem_append_left _ ?_
    rw [hidx]
    refine List.mem_map.mpr ⟨pk, List.mem_cons_self pk rest, ?_⟩
    show CatalogInsert.indexRow pk.iid pk.name = CatalogInsert.indexRow 0 pk.name
    rw [hiid]

/-- Witness for `claim_c3_amended` on `t(a INT PRIMARY KEY)`. -/
theorem claim_c3_amended_witness :
    ∃ sp2 rows,
      sqlEndTable
        { name := "t",
          fields := [{ name := "a", type := FieldType.integer,
                       nullable_action := OnConflictAction.abort,
                       is_nullable := false, coll_id := 0 }],
          indexes := [{ name := "pk_unnamed_t_1", iid := 0,
                        parts := [{ fieldno := 0, coll := 0 }] }],
          index_id_max := 0 } false [] [] = some (sp2, rows) ∧
      rows.filter (fun c => c.isIndexRow) =
        [CatalogInsert.indexRow 0 "pk_unnamed_t_1"] ∧
      CatalogInsert.indexRow 0 "pk_unnamed_t_1" ∈ rows := by
  have h := claim_c3_amended
    { name := "t",
      fields := [{ name := "a", type := FieldType.integer,
                   nullable_action := OnConflictAction.abort,
                   is_nullable := false, coll_id := 0 }],
      indexes := [{ name := "pk_unnamed_t_1", iid := 0,
                    parts := [{ fieldno := 0, coll := 0 }] }],
      index_id_max := 0 } false [] []
    { name := "pk_unnamed_t_1", iid := 0, parts := [{ fieldno := 0, coll := 0 }] }
    (by decide)
  simpa using h

/-- C9: the PK-at-slot-0 invariant is violated by the code.  On
`t(b INT, a INT)` with `UNIQUE(b)`, `UNIQUE(a)`, `PRIMARY KEY(a)`, the
redundancy scan repurposes the unique index on `a` *in place* (slot 1,
line 2614) without moving it to slot 0, so the attached-index sequence
ends up with iids `[1, 0]`; `sql_space_primary_key` (which the code's own
`assert(pk != NULL)` at line 621 relies on) then finds no primary key and
`sqlAddPrimaryKey` falls over its assertion. -/
theorem claim_c9_pk_slot0_violated :
    ((sql_create_index_in_table example_two_cols none SqlIndexType.constraintUnique
        [{ name := "b", coll := none }]).bind
      (fun s1 => sql_create_index_in_table s1 none SqlIndexType.constraintUnique
        [{ name := "a", coll := none }])).bind
      (fun s2 => sql_create_index_in_table s2 none SqlIndexType.constraintPk
        [{ name := "a", coll := none }]) =
      some { name := "t",
             fields := [fresh_column "b" FieldType.integer,
                        fresh_column "a" FieldType.integer],
             indexes := [{ name := "unique_unnamed_t_1", iid := 1,
                           parts := [{ fieldno := 0, coll := 0 }] },
                         { name := "unique_unnamed_t_2", iid := 0,
                           parts := [{ fieldno := 1, coll := 0 }] }],
             index_id_max := 2 } ∧
    (((sql_create_index_in_table example_two_cols none SqlIndexType.constraintUnique
        [{ name := "b", coll := none }]).bind
      (fun s1 => sql_create_index_in_table s1 none SqlIndexType.constraintUnique
        [{ name := "a", coll := none }])).bind
      (fun s2 => sql_create_index_in_table s2 none SqlIndexType.constraintPk
        [{ name := "a", coll := none }])).map sql_space_primary_key =
      some none ∧
    ((sql_create_index_in_table example_two_cols none SqlIndexType.constraintUnique
        [{ name := "b", coll := none }]).bind
      (fun s1 => sql_create_index_in_table s1 none SqlIndexType.constraintUnique
        [{ name := "a", coll := none }])).map
      (fun s2 => sqlAddPrimaryKey s2 none
        (some [{ name := "a", coll := none }]) false) =
      some (Except.error PkErr.pkLookupFailed) := by
  refine ⟨by decide, by decide, rfl⟩

/-- Patching an instruction's P2 does not change the program length. -/
theorem changeP2_length (ops : List VdbeOp) (addr target : Nat) :
    (changeP2 ops addr target).length = ops.length := by
  unfold changeP2
  rcases h : ops.get? addr with _ | op
  · rfl
  · cases op <;> simp

/-- Patching at `addr` leaves every other instruction unchanged. -/
theorem changeP2_get_ne (ops : List VdbeOp) (addr target b : Nat) (h : addr ≠ b) :
    (changeP2 ops addr target).get? b = ops.get? b := by
  unfold changeP2
  rcases hr : ops.get? addr with _ | op
  · rfl
  · cases op <;> first
      | rfl
      | exact List.get?_set_ne _ _ h

/-- Patching an `OP_SInsert` replaces exactly its P2 operand. -/
theorem changeP2_get_self (ops : List VdbeOp) (addr target : Nat)
    (sid p treg : Nat)
    (h : ops.get? addr = some (VdbeOp.sInsert sid p treg)) :
    (changeP2 ops addr target).get? addr =
      some (VdbeOp.sInsert sid target treg) := by
  unfold changeP2
  rw [h]
  exact List.get?_set_eq_of_lt _ (List.get?_eq_some.mp h).1

/-- Patching below `n` leaves the tail from `n` untouched. -/
theorem changeP2_drop (ops : List VdbeOp) (addr target n : Nat) (h : addr < n) :
    (changeP2 ops addr target).drop n = ops.drop n := by
  unfold changeP2
  rcases hr : ops.get? addr with _ | op
  · rfl
  · cases op <;> try rfl
    rw [List.drop_set]
    simp [h]

/-- The clean-up loop appends exactly two instructions per ledger
entry. -/
theorem cleanup_loop_length :
    ∀ (rs : List SavedRecord) (ops : List VdbeOp) (nMem : Nat),
      (cleanup_loop ops nMem rs).1.length = ops.length + 2 * rs.length := by
  intro rs
  induction rs with
  | nil => intro ops nMem; simp [cleanup_loop]
  | cons r rest ih =>
    intro ops nMem
    show (cleanup_loop (changeP2 _ _ _) _ rest).1.length = _
    rw [ih, changeP2_length]
    simp [List.length_append]
    ring

/-- The clean-up loop leaves untouched every instruction below the
original length whose address is no ledger entry's insertion opcode. -/
theorem cleanup_loop_get_low :
    ∀ (rs : List SavedRecord) (ops : List VdbeOp) (nMem b : Nat),
      b < ops.length → (∀ r ∈ rs, r.insertion_opcode ≠ b) →
      (cleanup_loop ops nMem rs).1.get? b = ops.get? b := by
  intro rs
  induction rs with
  | nil => intro ops nMem b _ _; rfl
  | cons r rest ih =>
    intro ops nMem b hb hne
    show (cleanup_loop (changeP2 (ops ++ _) _ _) _ rest).1.get? b = _
    rw [ih _ _ b (by rw [changeP2_length, List.length_append]; omega)
        (fun x hx => hne x (List.mem_cons_of_mem r hx))]
    rw [changeP2_get_ne _ _ _ _ (hne r (List.mem_cons_self r rest))]
    exact List.get?_append hb

/-- From any point at or above every patched address, the clean-up loop's
result is the original tail followed by the emitted
`OP_MakeRecord`/`OP_SDelete` pairs. -/
theorem cleanup_loop_drop :
    ∀ (rs : List SavedRecord) (ops : List VdbeOp) (nMem d : Nat),
      d ≤ ops.length → (∀ r ∈ rs, r.insertion_opcode < d) →
      (cleanup_loop ops nMem rs).1.drop d = ops.drop d ++ cleanup_tail nMem rs := by
  intro rs
  induction rs with
  | nil => intro ops nMem d _ _; simp [cleanup_loop, cleanup_tail]
  | cons r rest ih =>
    intro ops nMem d hd hlow
    show (cleanup_loop (changeP2 (ops ++ _) _ _) _ rest).1.drop d = _
    rw [ih _ _ d (by rw [changeP2_length, List.length_append]; omega)
        (fun x hx => hlow x (List.mem_cons_of_mem r hx))]
    rw [changeP2_drop _ _ _ _ (by
      have := hlow r (List.mem_cons_self r rest); omega)]
    rw [List.drop_append_of_le_length hd]
    simp [cleanup_tail]

/-- The clean-up loop patches the `t`-th remaining ledger entry's
`OP_SInsert` to jump right past that entry's own compensating-delete
pair: its new P2 is `ops.length + 2 * (t + 1)`. -/
theorem cleanup_loop_patch :
    ∀ (rs : List SavedRecord) (ops : List VdbeOp) (nMem t : Nat)
      (r : SavedRecord) (sid p treg : Nat),
      rs.get? t = some r →
      (∀ x ∈ rs, x.insertion_opcode < ops.length) →
      (rs.map SavedRecord.insertion_opcode).Nodup →
      ops.get? r.insertion_opcode = some (VdbeOp.sInsert sid p treg) →
      (cleanup_loop ops nMem rs).1.get? r.insertion_opcode =
        some (VdbeOp.sInsert sid (ops.length + 2 * (t + 1)) treg) := by
  intro rs
  induction rs with
  | nil => intro ops nMem t r sid p treg hget; simp at hget
  | cons x rest ih =>
    intro ops nMem t r sid p treg hget hlow hnd hop
    have hndrest : (rest.map SavedRecord.insertion_opcode).Nodup :=
      (List.nodup_cons.mp hnd).2
    have hxnotin : x.insertion_opcode ∉ rest.map SavedRecord.insertion_opcode :=
      (List.nodup_cons.mp hnd).1
    cases t with
    | zero =>
      have hr : x = r := by simpa using hget
      subst hr
      show (cleanup_loop (changeP2 (ops ++ _) _ _) _ rest).1.get? _ = _
      rw [cleanup_loop_get_low rest _ _ _
          (by
            rw [changeP2_length, List.length_append]
            have := hlow x (List.mem_cons_self x rest)
            simp
            omega)
          (fun y hy => by
            intro hcontra
            exact hxnotin (hcontra ▸ List.mem_map_of_mem SavedRecord.insertion_opcode hy))]
      rw [changeP2_get_self _ _ _ sid p treg
          (by rw [List.get?_append (hlow x (List.mem_cons_self x rest))]; exact hop)]
      congr 2
      simp
    | succ t' =>
      have hget' : rest.get? t' = some r := by simpa using hget
      have hrmem : r ∈ rest := List.get?_mem hget'
      have hrne : x.insertion_opcode ≠ r.insertion_opcode := by
        intro hcontra
        exact hxnotin (hcontra ▸ List.mem_map_of_mem SavedRecord.insertion_opcode hrmem)
      show (cleanup_loop (changeP2 (ops ++ _) _ _) _ rest).1.get? _ = _
      rw [ih _ _ t' r sid p treg hget'
          (fun y hy => by
            rw [changeP2_length, List.length_append]
            have := hlow y (List.mem_cons_of_mem x hy)
            simp
            omega)
          hndrest
          (by
            rw [changeP2_get_ne _ _ _ _ hrne]
            rw [List.get?_append (hlow r (List.mem_cons_of_mem x hrmem))]
            exact hop)]
      congr 2
      simp only [changeP2_length, List.length_append, List.length_cons,
        List.length_nil]
      omega

/-- Two instructions per remaining ledger entry. -/
theorem cleanup_tail_length :
    ∀ (l : List SavedRecord) (nMem : Nat), (cleanup_tail nMem l).length = 2 * l.length := by
  intro l
  induction l with
  | nil => intro nMem; rfl
  | cons r rest ih =>
    intro nMem
    simp only [cleanup_tail, List.length_cons, ih]
    ring

/-- Dropping `2 * t` instructions of the clean-up code skips its first
`t` entries. -/
theorem cleanup_tail_drop :
    ∀ (t : Nat) (l : List SavedRecord) (nMem : Nat), t ≤ l.length →
      (cleanup_tail nMem l).drop (2 * t) = cleanup_tail (nMem + t) (l.drop t) := by
  intro t
  induction t with
  | zero => intro l nMem _; simp
  | succ t' ih =>
    intro l nMem hle
    match l with
    | [] => simp at hle
    | r :: rest =>
      have h2 : 2 * (t' + 1) = (2 * t') + 1 + 1 := by ring
      rw [h2]
      show (cleanup_tail nMem (r :: rest)).drop ((2 * t') + 1 + 1) = _
      simp only [cleanup_tail, List.drop_succ_cons]
      rw [ih rest (nMem + 1) (by simpa using hle)]
      congr 1
      omega

/-- The compensating deletes present in the clean-up code are exactly one
per remaining ledger entry, in order. -/
theorem cleanup_tail_sdeletes :
    ∀ (l : List SavedRecord) (nMem : Nat),
      (cleanup_tail nMem l).filterMap sdelete_space =
        l.map SavedRecord.space_id := by
  intro l
  induction l with
  | nil => intro nMem; rfl
  | cons r rest ih =>
    intro nMem
    simp only [cleanup_tail, List.filterMap_cons, sdelete_space, ih, List.map_cons]

/-- One VM step on an `OP_Halt`. -/
theorem vdbe_exec_step_halt (ops : List VdbeOp) (failing : Nat → Bool)
    (fuel pc e : Nat) (h : ops.get? pc = some (VdbeOp.halt e)) :
    vdbe_exec ops failing (fuel + 1) pc = ([], some e) := by
  simp only [vdbe_exec]
  rw [h]

/-- One VM step on an `OP_MakeRecord`. -/
theorem vdbe_exec_step_makeRecord (ops : List VdbeOp) (failing : Nat → Bool)
    (fuel pc a b c : Nat) (h : ops.get? pc = some (VdbeOp.makeRecord a b c)) :
    vdbe_exec ops failing (fuel + 1) pc = vdbe_exec ops failing fuel (pc + 1) := by
  simp only [vdbe_exec]
  rw [h]

/-- One VM step on an `OP_SDelete`: record the deleted space. -/
theorem vdbe_exec_step_sdelete (ops : List VdbeOp) (failing : Nat → Bool)
    (fuel pc sid rr : Nat) (h : ops.get? pc = some (VdbeOp.sDelete sid rr)) :
    vdbe_exec ops failing (fuel + 1) pc =
      (sid :: (vdbe_exec ops failing fuel (pc + 1)).1,
        (vdbe_exec ops failing fuel (pc + 1)).2) := by
  simp only [vdbe_exec]
  rw [h]

/-- Running the VM over the clean-up code from its start executes one
`OP_SDelete` per listed entry, in order, and ends at the closing
`OP_Halt`'s error code. -/
theorem vdbe_exec_cleanup_tail :
    ∀ (l : List SavedRecord) (ops : List VdbeOp) (pc nMem e : Nat)
      (failing : Nat → Bool),
      ops.drop pc = cleanup_tail nMem l ++ [VdbeOp.halt e] →
      vdbe_exec ops failing (2 * l.length + 1) pc =
        (l.map SavedRecord.space_id, some e) := by
  intro l
  induction l with
  | nil =>
    intro ops pc nMem e failing hdrop
    have hpc : ops.get? pc = some (VdbeOp.halt e) := by
      have : (ops.drop pc).get? 0 = ops.get? (pc + 0) := List.get?_drop ops pc 0
      rw [hdrop] at this
      simpa using this.symm
    exact vdbe_exec_step_halt ops failing _ pc e hpc
  | cons r rest ih =>
    intro ops pc nMem e failing hdrop
    have hget : ∀ k, ops.get? (pc + k) = (cleanup_tail nMem (r :: rest) ++ [VdbeOp.halt e]).get? k := by
      intro k
      rw [← List.get?_drop, hdrop]
    have hpc0 : ops.get? pc =
        some (VdbeOp.makeRecord r.reg_key r.reg_key_count (nMem + 1)) := by
      have := hget 0
      simpa [cleanup_tail] using this
    have hpc1 : ops.get? (pc + 1) =
        some (VdbeOp.sDelete r.space_id (nMem + 1)) := by
      have := hget 1
      simpa [cleanup_tail] using this
    have hdrop2 : ops.drop (pc + 2) = cleanup_tail (nMem + 1) rest ++ [VdbeOp.halt e] := by
      have : ops.drop (pc + 2) = (ops.drop pc).drop 2 := by
        rw [List.drop_drop]
      rw [this, hdrop]
      simp [cleanup_tail]
    have hfuel : 2 * (r :: rest).length + 1 = (2 * rest.length + 1) + 1 + 1 := by
      simp [List.length_cons]
      ring
    rw [hfuel]
    rw [vdbe_exec_step_makeRecord ops failing _ pc _ _ _ hpc0]
    rw [vdbe_exec_step_sdelete ops failing _ (pc + 1) _ _ hpc1]
    have hnext := ih ops (pc + 2) (nMem + 1) e failing hdrop2
    rw [show pc + 1 + 1 = pc + 2 from rfl, hnext]
    simp

/-- Structure of the program produced by the undo portion of
`sql_finish_coding` for a non-empty ledger `last :: rest` (`last` is the
most recently registered insertion): past the appended `OP_Halt` the
program is exactly the clean-up pairs for `rest` followed by the error
halt; `last`'s `OP_SInsert` is patched to jump to the clean-up start; and
the `t`-th entry of `rest` is patched to jump right past its own
compensating-delete pair. -/
theorem sql_finish_coding_undo_structure
    (B : List VdbeOp) (last : SavedRecord) (rest : List SavedRecord) (nMem : Nat)
    (hwf : ∀ x ∈ last :: rest, ∃ sid p2 treg,
      B.get? x.insertion_opcode = some (VdbeOp.sInsert sid p2 treg))
    (hnd : ((last :: rest).map SavedRecord.insertion_opcode).Nodup) :
    (sql_finish_coding_undo B (last :: rest) nMem).drop (B.length + 1) =
      cleanup_tail nMem rest ++ [VdbeOp.halt SQL_TARANTOOL_ERROR] ∧
    (∃ sid treg, (sql_finish_coding_undo B (last :: rest) nMem).get?
        last.insertion_opcode =
      some (VdbeOp.sInsert sid (B.length + 1) treg)) ∧
    (∀ t r, rest.get? t = some r → ∃ sid treg,
      (sql_finish_coding_undo B (last :: rest) nMem).get? r.insertion_opcode =
        some (VdbeOp.sInsert sid (B.length + 1 + 2 * (t + 1)) treg)) := by
  have hlow : ∀ x ∈ last :: rest, x.insertion_opcode < B.length := by
    intro x hx
    rcases hwf x hx with ⟨sid, p2, treg, hop⟩
    exact (List.get?_eq_some.mp hop).1
  have hlen0 : (B ++ [VdbeOp.halt 0]).length = B.length + 1 := by simp
  have hlen1 : (changeP2 (B ++ [VdbeOp.halt 0]) last.insertion_opcode
      (B ++ [VdbeOp.halt 0]).length).length = B.length + 1 := by
    rw [changeP2_length, hlen0]
  have hrestlow : ∀ x ∈ rest, x.insertion_opcode <
      (changeP2 (B ++ [VdbeOp.halt 0]) last.insertion_opcode
        (B ++ [VdbeOp.halt 0]).length).length := by
    intro x hx
    rw [hlen1]
    have := hlow x (List.mem_cons_of_mem last hx)
    omega
  have hdisj : last.insertion_opcode ∉
      rest.map SavedRecord.insertion_opcode := (List.nodup_cons.mp hnd).1
  have hndrest : (rest.map SavedRecord.insertion_opcode).Nodup :=
    (List.nodup_cons.mp hnd).2
  have hF : sql_finish_coding_undo B (last :: rest) nMem =
      (cleanup_loop (changeP2 (B ++ [VdbeOp.halt 0]) last.insertion_opcode
        (B ++ [VdbeOp.halt 0]).length) nMem rest).1 ++
        [VdbeOp.halt SQL_TARANTOOL_ERROR] := rfl
  have hlen2 : (cleanup_loop (changeP2 (B ++ [VdbeOp.halt 0])
      last.insertion_opcode (B ++ [VdbeOp.halt 0]).length) nMem rest).1.length =
      B.length + 1 + 2 * rest.length := by
    rw [cleanup_loop_length, hlen1]
  refine ⟨?_, ?_, ?_⟩
  · rw [hF, List.drop_append_of_le_length (by rw [hlen2]; omega)]
    rw [cleanup_loop_drop rest _ nMem (B.length + 1) (by rw [hlen1])
        (fun x hx => by
          have := hlow x (List.mem_cons_of_mem last hx); omega)]
    rw [show B.length + 1 = (changeP2 (B ++ [VdbeOp.halt 0])
        last.insertion_opcode (B ++ [VdbeOp.halt 0]).length).length from hlen1.symm,
      List.drop_length]
    simp
  · rcases hwf last (List.mem_cons_self last rest) with ⟨sid, p2, treg, hop⟩
    refine ⟨sid, treg, ?_⟩
    rw [hF, List.get?_append (by
      rw [hlen2]
      have := hlow last (List.mem_cons_self last rest)
      omega)]
    rw [cleanup_loop_get_low rest _ nMem last.insertion_opcode
        (by rw [hlen1]; have := hlow last (List.mem_cons_self last rest); omega)
        (fun x hx => by
          intro hcontra
          exact hdisj (hcontra ▸
            List.mem_map_of_mem SavedRecord.insertion_opcode hx))]
    have hop0 : (B ++ [VdbeOp.halt 0]).get? last.insertion_opcode =
        some (VdbeOp.sInsert sid p2 treg) := by
      rw [List.get?_append (hlow last (List.mem_cons_self last rest))]
      exact hop
    rw [changeP2_get_self _ _ _ sid p2 treg hop0, hlen0]
  · intro t r hget
    have hrmem : r ∈ rest := List.get?_mem hget
    rcases hwf r (List.mem_cons_of_mem last hrmem) with ⟨sid, p2, treg, hop⟩
    refine ⟨sid, treg, ?_⟩
    rw [hF, List.get?_append (by
      rw [hlen2]
      have := hlow r (List.mem_cons_of_mem last hrmem)
      omega)]
    have hop1 : (changeP2 (B ++ [VdbeOp.halt 0]) last.insertion_opcode
        (B ++ [VdbeOp.halt 0]).length).get? r.insertion_opcode =
        some (VdbeOp.sInsert sid p2 treg) := by
      rw [changeP2_get_ne _ _ _ _ (by
        intro hcontra
        exact hdisj (hcontra ▸
          List.mem_map_of_mem SavedRecord.insertion_opcode hrmem))]
      rw [List.get?_append (hlow r (List.mem_cons_of_mem last hrmem))]
      exact hop
    rw [cleanup_loop_patch rest _ nMem t r sid p2 treg hget hrestlow hndrest hop1,
      hlen1]

/-- `save_record` builds the ledger in reverse emission order. -/
theorem save_record_foldl (rs : List SavedRecord) :
    ∀ acc : List SavedRecord,
      rs.foldl (fun acc x =>
        save_record acc x.space_id x.reg_key x.reg_key_count x.insertion_opcode)
        acc = rs.reverse ++ acc := by
  induction rs with
  | nil => intro acc; simp
  | cons r rest ih =>
    intro acc
    rw [List.foldl_cons, ih]
    simp [save_record]

/-- C1: behaviour of the emitted undo code, with the statement's
insertions numbered 1..n in emission order over *all* catalog-row
insertions the ledger registered for the statement (the table row itself
is insertion 1; `init` are insertions 1..n-1, `last` is insertion n, the
ledger is built by `save_record` in reverse).  For the entry `r` of
insertion `j`: its `OP_SInsert` gets patched with the failure-jump target
`B.length + 1 + 2*(n-j)`; running the VM from that target (what the VM
does when insertion j fails at run time) executes exactly `j-1`
compensating `OP_SDelete`s — one per earlier insertion, most recent
first, never one for insertion j or any later one — and ends at the
single halt-with-error instruction; and the compensating deletes emitted
at finalisation are exactly one per insertion 1..n-1, so the ledger entry
of the final insertion never receives one. -/
theorem claim_c1_undo_ledger
    (B : List VdbeOp) (init : List SavedRecord) (last : SavedRecord)
    (nMem j : Nat) (failing : Nat → Bool) (r : SavedRecord)
    (hwf : ∀ x ∈ init ++ [last], ∃ sid p2 treg,
      B.get? x.insertion_opcode = some (VdbeOp.sInsert sid p2 treg))
    (hnd : ((init ++ [last]).map SavedRecord.insertion_opcode).Nodup)
    (hj1 : 1 ≤ j) (hjn : j ≤ init.length + 1)
    (hr : (init ++ [last]).get? (j - 1) = some r) :
    (∀ rs : List SavedRecord,
      rs.foldl (fun acc x =>
        save_record acc x.space_id x.reg_key x.reg_key_count x.insertion_opcode)
        [] = rs.reverse) ∧
    (∃ sid treg,
      (sql_finish_coding_undo B (init ++ [last]).reverse nMem).get?
          r.insertion_opcode =
        some (VdbeOp.sInsert sid
          (B.length + 1 + 2 * (init.length + 1 - j)) treg)) ∧
    vdbe_exec (sql_finish_coding_undo B (init ++ [last]).reverse nMem) failing
        (2 * (j - 1) + 1) (B.length + 1 + 2 * (init.length + 1 - j)) =
      ((init.take (j - 1)).reverse.map SavedRecord.space_id,
        some SQL_TARANTOOL_ERROR) ∧
    ((init.take (j - 1)).reverse.map SavedRecord.space_id).length = j - 1 ∧
    ((sql_finish_coding_undo B (init ++ [last]).reverse nMem).drop
        (B.length + 1)).filterMap sdelete_space =
      init.reverse.map SavedRecord.space_id := by
  have hrev : (init ++ [last]).reverse = last :: init.reverse := by simp
  have hwf' : ∀ x ∈ last :: init.reverse, ∃ sid p2 treg,
      B.get? x.insertion_opcode = some (VdbeOp.sInsert sid p2 treg) := by
    intro x hx
    refine hwf x ?_
    rcases List.mem_cons.mp hx with rfl | hx'
    · exact List.mem_append_right _ (List.mem_singleton_self x)
    · exact List.mem_append_left _ (List.mem_reverse.mp hx')
  have hnd' : ((last :: init.reverse).map SavedRecord.insertion_opcode).Nodup := by
    rw [← hrev, List.map_reverse, List.nodup_reverse]
    exact hnd
  obtain ⟨hdrop, hlast, hpatch⟩ :=
    sql_finish_coding_undo_structure B last init.reverse nMem hwf' hnd'
  refine ⟨fun rs => by rw [save_record_foldl]; simp, ?_, ?_, ?_, ?_⟩
  · -- the patched failure-jump target of insertion j's OP_SInsert
    rw [hrev]
    by_cases hj : j = init.length + 1
    · have hrl : r = last := by
        have h1 : j - 1 = init.length := by omega
        rw [h1, List.get?_concat_length] at hr
        exact (Option.some_inj.mp hr).symm
      subst hrl
      rw [show init.length + 1 - j = 0 from by omega]
      simpa using hlast
    · have hjlt : j ≤ init.length := by omega
      have hrinit : init.get? (j - 1) = some r := by
        rw [← List.get?_append (show j - 1 < init.length by omega)]
        exact hr
      have hrevget : init.reverse.get? (init.length - j) = some r := by
        rw [List.get?_reverse (by omega)]
        rw [show init.length - 1 - (init.length - j) = j - 1 from by omega]
        exact hrinit
      have := hpatch (init.length - j) r hrevget
      rw [show init.length + 1 - j = init.length - j + 1 from by omega]
      exact this
  · -- running from the failure-jump target
    rw [hrev]
    have htail : (sql_finish_coding_undo B (last :: init.reverse) nMem).drop
        (B.length + 1 + 2 * (init.length + 1 - j)) =
        cleanup_tail (nMem + (init.length + 1 - j))
            (init.reverse.drop (init.length + 1 - j)) ++
          [VdbeOp.halt SQL_TARANTOOL_ERROR] := by
      rw [← List.drop_drop, hdrop]
      rw [List.drop_append_of_le_length (show
        2 * (init.length + 1 - j) ≤ (cleanup_tail nMem init.reverse).length by
        rw [cleanup_tail_length]
        simp
        omega)]
      rw [cleanup_tail_drop (init.length + 1 - j) init.reverse nMem
        (by simp; omega)]
    have hexec := vdbe_exec_cleanup_tail
      (init.reverse.drop (init.length + 1 - j))
      (sql_finish_coding_undo B (last :: init.reverse) nMem)
      (B.length + 1 + 2 * (init.length + 1 - j))
      (nMem + (init.length + 1 - j)) SQL_TARANTOOL_ERROR failing htail
    have hlen : (init.reverse.drop (init.length + 1 - j)).length = j - 1 := by
      simp
      omega
    have hlist : init.reverse.drop (init.length + 1 - j) =
        (init.take (j - 1)).reverse := by
      rw [List.reverse_take]
      congr 1
      omega
    rw [hlen, hlist] at hexec
    exact hexec
  · simp
    omega
  · -- one compensating delete per non-final insertion
    rw [hrev, hdrop, List.filterMap_append, cleanup_tail_sdeletes]
    simp [sdelete_space]

/-- Witness for `claim_c1_undo_ledger` on `example_undo_base` with three
registered insertions (spaces 280, 281, 282) and a forced failure at
insertion j = 2: its `OP_SInsert` (address 2) is patched to jump to
address 7; running from address 7 executes exactly one compensating
delete — for insertion 1 (space 280) — then halts with the error; and
the emitted compensating deletes cover exactly insertions 2 and 1 (never
the final insertion for space 282). -/
theorem claim_c1_undo_ledger_witness :
    (∀ rs : List SavedRecord,
      rs.foldl (fun acc x =>
        save_record acc x.space_id x.reg_key x.reg_key_count x.insertion_opcode)
        [] = rs.reverse) ∧
    (∃ sid treg,
      (sql_finish_coding_undo example_undo_base
          [{ space_id := 282, reg_key := 30, reg_key_count := 1, insertion_opcode := 3 },
           { space_id := 281, reg_key := 20, reg_key_count := 1, insertion_opcode := 2 },
           { space_id := 280, reg_key := 10, reg_key_count := 1, insertion_opcode := 0 }]
          5).get? 2 = some (VdbeOp.sInsert sid 7 treg)) ∧
    vdbe_exec
        (sql_finish_coding_undo example_undo_base
          [{ space_id := 282, reg_key := 30, reg_key_count := 1, insertion_opcode := 3 },
           { space_id := 281, reg_key := 20, reg_key_count := 1, insertion_opcode := 2 },
           { space_id := 280, reg_key := 10, reg_key_count := 1, insertion_opcode := 0 }]
          5) (fun _ => true) 3 7 = ([280], some SQL_TARANTOOL_ERROR) ∧
    (([280] : List Nat).length = 1) ∧
    ((sql_finish_coding_undo example_undo_base
          [{ space_id := 282, reg_key := 30, reg_key_count := 1, insertion_opcode := 3 },
           { space_id := 281, reg_key := 20, reg_key_count := 1, insertion_opcode := 2 },
           { space_id := 280, reg_key := 10, reg_key_count := 1, insertion_opcode := 0 }]
          5).drop 5).filterMap sdelete_space = [281, 280] :=
  claim_c1_undo_ledger example_undo_base
    [{ space_id := 280, reg_key := 10, reg_key_count := 1, insertion_opcode := 0 },
     { space_id := 281, reg_key := 20, reg_key_count := 1, insertion_opcode := 2 }]
    { space_id := 282, reg_key := 30, reg_key_count := 1, insertion_opcode := 3 }
    5 2 (fun _ => true)
    { space_id := 281, reg_key := 20, reg_key_count := 1, insertion_opcode := 2 }
    (by
      intro x hx
      fin_cases hx
      · exact ⟨280, 0, 1, rfl⟩
      · exact ⟨281, 0, 2, rfl⟩
      · exact ⟨282, 0, 3, rfl⟩)
    (by decide) (by decide) (by decide) (by decide)
